import Mathlib

/-!
Verification of the VOC-annotation curation pipeline (`extractor.py`).

The data model is a shallow embedding of the VOC XML trees the source
manipulates with `xml.etree.ElementTree`: one document per image, holding a
folder, an image filename, optional pixel dimensions, and a list of object
entries.  Each object entry carries its `name` (label) text, its bounding-box
texts and its `attributes` section (a list of name/value pairs, first match
wins, as XPath `.//attribute[name=...]/value` does).

Fallible Python code (attribute lookups through `None`, `int()`/`float()`
parses, `shutil.copy`) is embedded with `Except VOCError`.
-/

/-- Bounding-box texts as stored in the XML tree.  No rule ever parses or
rewrites them, so they stay in their textual form. -/
structure BndBox where
  xmin : String
  ymin : String
  xmax : String
  ymax : String
deriving DecidableEq, Repr

/-- One `object` subtree: the `name` (label) text, the bounding box and the
`attribute` entries (name text, value text). -/
structure VOCObject where
  name : String
  bndbox : BndBox
  attributes : List (String × String)
deriving DecidableEq, Repr

/-- One VOC annotation document: the root tree of one XML file. -/
structure VOCDocument where
  folder : String
  filename : String
  width : Option Nat
  height : Option Nat
  objects : List VOCObject
deriving DecidableEq, Repr

/-- Errors raised by the embedded Python code. -/
inductive VOCError where
  /-- `AttributeError`: `.text` on a failed `find` (missing attribute). -/
  | missingAttribute (attr : String)
  /-- `ValueError`: `int()` or `float()` on a non-numeric string. -/
  | valueError (s : String)
  /-- `IndexError`: `text[0]` on an empty label. -/
  | indexError
  /-- `FileNotFoundError` from `shutil.copy`: the source image is missing. -/
  | missingImage (path : String)
deriving DecidableEq, Repr

/-- XPath lookup `.//attribute[name=<attr>]/value` on one object: the value
text of the first attribute entry with the given name. -/
def findAttr (o : VOCObject) (attr : String) : Option String :=
  (o.attributes.find? (fun p => p.1 == attr)).map (fun p => p.2)

/-- Value of a digit list read in base 10. -/
def digitsVal (l : List Char) : Nat :=
  l.foldl (fun a c => a * 10 + (c.toNat - 48)) 0

/-- Optional sign prefix: returns (negative?, rest). -/
def splitSign : List Char → Bool × List Char
  | '+' :: r => (false, r)
  | '-' :: r => (true, r)
  | r => (false, r)

/-- Python `int(s)`: optional sign followed by at least one digit. -/
def pyInt (s : String) : Option Int :=
  let (neg, l) := splitSign s.toList
  if l ≠ [] ∧ l.all Char.isDigit then
    some (if neg then -(digitsVal l : Int) else (digitsVal l : Int))
  else none

/-- Unsigned decimal mantissa: `digits`, `digits.digits`, `.digits` or
`digits.`, with at least one digit overall.  Value as a rational. -/
def parseMantissa (l : List Char) : Option ℚ :=
  match l.splitOn '.' with
  | [ds] =>
      if ds ≠ [] ∧ ds.all Char.isDigit then some (digitsVal ds : ℚ) else none
  | [ds, fs] =>
      if (ds ≠ [] ∨ fs ≠ []) ∧ ds.all Char.isDigit ∧ fs.all Char.isDigit then
        some ((digitsVal (ds ++ fs) : ℚ) / (10 : ℚ) ^ fs.length)
      else none
  | _ => none

/-- Signed decimal mantissa. -/
def parseSignedMantissa (l : List Char) : Option ℚ :=
  let (neg, r) := splitSign l
  (parseMantissa r).map (fun q => if neg then -q else q)

/-- Signed exponent: optional sign followed by at least one digit. -/
def parseExponent (l : List Char) : Option Int :=
  let (neg, r) := splitSign l
  if r ≠ [] ∧ r.all Char.isDigit then
    some (if neg then -(digitsVal r : Int) else (digitsVal r : Int))
  else none

/-- Python `float(s)` on ordinary decimal literals, valued in ℚ:
`[sign] digits [. digits] [e [sign] digits]`. -/
def pyFloat (s : String) : Option ℚ :=
  let l := s.toList.map (fun c => if c = 'E' then 'e' else c)
  match l.splitOn 'e' with
  | [m] => parseSignedMantissa m
  | [m, e] => do
      let mv ← parseSignedMantissa m
      let ev ← parseExponent e
      some (mv * (10 : ℚ) ^ ev)
  | _ => none

/-- A Python runtime value appearing in an allow-list; `pyEq` is Python `==`
between such values (cross-type comparison is `False`). -/
inductive PyVal where
  | int (n : Int)
  | str (s : String)
deriving DecidableEq, Repr

/-- Python `==` on allow-list entries vs. a parsed label. -/
def pyEq : PyVal → PyVal → Bool
  | .int m, .int n => m == n
  | .str a, .str b => a == b
  | _, _ => false

/-- The closed set of transform strategies defined in `extractor.py`. -/
inductive Strategy where
  | moveBBCHCode
  | removeRotatedGrapes
  | removeUnwantedBBCH (bbch_codes : List PyVal)
  | clusterBBCHCode (bbch_code_clusters : List (List Int))
  | generalizeBBCH
deriving DecidableEq, Repr

/-- Loop body of `MoveBBCHCodeStrategy.apply`: read the object's `BBCH`
attribute value and write it into the `name` tag.  A missing attribute makes
`find` return `None`, and `.text` on it raises `AttributeError`. -/
def moveBBCHObj (o : VOCObject) : Except VOCError VOCObject :=
  match findAttr o "BBCH" with
  | some v => Except.ok { o with name := v }
  | none => Except.error (VOCError.missingAttribute "BBCH")

/-- `MoveBBCHCodeStrategy.apply`. -/
def applyMoveBBCH (doc : VOCDocument) : Except VOCError VOCDocument := do
  let objs ← doc.objects.mapM moveBBCHObj
  return { doc with objects := objs }

/-- Is this object rotated?  `contextlib.suppress(AttributeError)` turns a
missing `rotation` attribute into "keep the object"; a present value is
parsed with `float`, whose `ValueError` is not suppressed. -/
def rotationCheck (o : VOCObject) : Except VOCError Bool :=
  match findAttr o "rotation" with
  | none => Except.ok false
  | some v =>
      match pyFloat v with
      | some q => Except.ok (decide (q ≠ 0))
      | none => Except.error (VOCError.valueError v)

/-- The object-list filtering done by `RemoveRotatedGrapesStrategy.apply`
(iteration is over the `findall` snapshot, so removal is plain filtering). -/
def filterRotated : List VOCObject → Except VOCError (List VOCObject)
  | [] => Except.ok []
  | o :: rest => do
      let b ← rotationCheck o
      let rest' ← filterRotated rest
      if b then return rest' else return o :: rest'

/-- `RemoveRotatedGrapesStrategy.apply`. -/
def applyRemoveRotated (doc : VOCDocument) : Except VOCError VOCDocument := do
  let objs ← filterRotated doc.objects
  return { doc with objects := objs }

/-- The object-list filtering done by
`RemoveUnwantedBBCHAnnotationsStrategy.apply`: the label is parsed with
`int()` (raising `ValueError` on non-numeric text) and the object is kept
iff that integer is `in` the configured list under Python `==`.  The
constructor annotation types the list as `list[str]`, while the comparison
side is the parsed `int` — `pyEq` renders Python cross-type equality. -/
def filterUnwanted (bbch_codes : List PyVal) :
    List VOCObject → Except VOCError (List VOCObject)
  | [] => Except.ok []
  | o :: rest =>
      match pyInt o.name with
      | none => Except.error (VOCError.valueError o.name)
      | some n => do
          let rest' ← filterUnwanted bbch_codes rest
          if bbch_codes.any (fun c => pyEq (PyVal.int n) c) then
            return o :: rest'
          else
            return rest'

/-- `RemoveUnwantedBBCHAnnotationsStrategy.apply`. -/
def applyRemoveUnwanted (bbch_codes : List PyVal) (doc : VOCDocument) :
    Except VOCError VOCDocument := do
  let objs ← filterUnwanted bbch_codes doc.objects
  return { doc with objects := objs }

/-- The cluster key `'_'.join(str(elem) for elem in cluster)`. -/
def clusterKey (cluster : List Int) : String :=
  String.intercalate "_" (cluster.map toString)

/-- The table built by `ClusterBBCHCodeStrategy.__init__`: each member label
maps to its cluster's key, later clusters overwriting earlier dict entries,
so a label's mapping comes from the last cluster containing it. -/
def clusterLookup (clusters : List (List Int)) (label : String) :
    Option String :=
  (clusters.reverse.find? (fun c => c.any (fun e => toString e == label))).map
    clusterKey

/-- `ClusterBBCHCodeStrategy.apply`: objects whose label has no table entry
are removed, the rest are relabelled with their cluster key. -/
def applyCluster (clusters : List (List Int)) (doc : VOCDocument) :
    VOCDocument :=
  { doc with
    objects := doc.objects.filterMap (fun o =>
      (clusterLookup clusters o.name).map (fun k => { o with name := k })) }

/-- `text[0]` on a label: its first character as a one-character string;
`IndexError` when the label is empty. -/
def generalizeObj (o : VOCObject) : Except VOCError VOCObject :=
  if o.name = "" then Except.error VOCError.indexError
  else Except.ok { o with name := String.mk (o.name.toList.take 1) }

/-- `GeneralizeBBCHCodeStrategy.apply`: truncate each label to its first
character; `text[0]` on an empty string raises `IndexError`. -/
def applyGeneralize (doc : VOCDocument) : Except VOCError VOCDocument := do
  let objs ← doc.objects.mapM generalizeObj
  return { doc with objects := objs }

/-- Dispatch of `AbstractVOCProcessStrategy.apply` over the closed set. -/
def applyStrategy : Strategy → VOCDocument → Except VOCError VOCDocument
  | .moveBBCHCode, doc => applyMoveBBCH doc
  | .removeRotatedGrapes, doc => applyRemoveRotated doc
  | .removeUnwantedBBCH codes, doc => applyRemoveUnwanted codes doc
  | .clusterBBCHCode clusters, doc => Except.ok (applyCluster clusters doc)
  | .generalizeBBCH, doc => applyGeneralize doc

/-- `VOCProcessor.process`: fold the strategies over the document. -/
def VOCProcessor.process (strategies : List Strategy) (doc : VOCDocument) :
    Except VOCError VOCDocument :=
  strategies.foldlM (fun d s => applyStrategy s d) doc

/-- `subtree_has_grapes`. -/
def subtree_has_grapes (doc : VOCDocument) : Bool :=
  !doc.objects.isEmpty

/-- `get_raw_filename`: `full_filepath.split('/')[-1]`, the last
`/`-separated component. -/
def get_raw_filename (full_filepath : String) : String :=
  String.mk ((full_filepath.toList.splitOn '/').getLastD [])

/-- The extension computed by `process_dataset`:
`img_filename.split('.')[-1]`. -/
def imgExtension (img_filename : String) : String :=
  String.mk ((img_filename.toList.splitOn '.').getLastD [])

/-- The files produced by a batch run: the annotation documents written (with
their target path) and the image copies performed (source path, target
path). -/
structure SyncOutput where
  xmlFiles : List (String × VOCDocument)
  imgFiles : List (String × String)
deriving DecidableEq, Repr

/-- `process_dataset`, driven over parsed documents.  The real driver names
each surviving pair after `uuid.uuid4()`; the generator is injected as
`idGen`, fed with the number of identifiers consumed so far (`n`).  A copy
of the paired image succeeds exactly when its source path is in
`existingImages`; a missing image raises out of the loop, as the unguarded
`shutil.copy` call does.  Errors raised by a strategy propagate likewise. -/
def process_dataset (origin_img_files_path : String)
    (strategies : List Strategy)
    (output_annotation_path output_photos_path : String)
    (existingImages : List String) (idGen : Nat → String) :
    Nat → List VOCDocument → Except VOCError SyncOutput
  | _, [] => Except.ok ⟨[], []⟩
  | n, doc :: rest => do
      let root ← VOCProcessor.process strategies doc
      if subtree_has_grapes root then
        let img_filename := get_raw_filename root.filename
        let img_extension := imgExtension img_filename
        let origin_img_file_path := origin_img_files_path ++ img_filename
        let filename := idGen n
        let target_xml_filename := filename ++ ".xml"
        let target_img_filename := filename ++ "." ++ img_extension
        let target_img_filepath := output_photos_path ++ target_img_filename
        let target_xml_filepath :=
          output_annotation_path ++ target_xml_filename
        let written := { root with folder := "", filename := target_img_filename }
        if origin_img_file_path ∈ existingImages then
          let out ← process_dataset origin_img_files_path strategies
            output_annotation_path output_photos_path existingImages idGen
            (n + 1) rest
          Except.ok ⟨(target_xml_filepath, written) :: out.xmlFiles,
            (origin_img_file_path, target_img_filepath) :: out.imgFiles⟩
        else
          Except.error (VOCError.missingImage origin_img_file_path)
      else
        process_dataset origin_img_files_path strategies
          output_annotation_path output_photos_path existingImages idGen
          n rest

instance {ε α : Type} [DecidableEq ε] [DecidableEq α] :
    DecidableEq (Except ε α) := fun a b =>
  match a, b with
  | Except.ok x, Except.ok y =>
      if h : x = y then isTrue (by simp [h]) else isFalse (by simp [h])
  | Except.ok _, Except.error _ => isFalse (by simp)
  | Except.error _, Except.ok _ => isFalse (by simp)
  | Except.error e, Except.error f =>
      if h : e = f then isTrue (by simp [h]) else isFalse (by simp [h])

/-- Derived predicate: the object's `rotation` attribute is present and its
value parses to a nonzero number. -/
def isRotatedB (o : VOCObject) : Bool :=
  match findAttr o "rotation" with
  | none => false
  | some v =>
      match pyFloat v with
      | some q => decide (q ≠ 0)
      | none => false

/-- Derived predicate: the label parses to an integer that is `in` the
allow-list under Python equality. -/
def allowMatch (bbch_codes : List PyVal) (o : VOCObject) : Bool :=
  match pyInt o.name with
  | some n => bbch_codes.any (fun c => pyEq (PyVal.int n) c)
  | none => false

/-- All the object data except the label: the bounding box and the
attribute section.  No strategy ever rewrites these. -/
def objShape (o : VOCObject) : BndBox × List (String × String) :=
  (o.bndbox, o.attributes)

/-! ### Concrete documents used by the closed theorems -/

def bb0 : BndBox := { xmin := "0", ymin := "0", xmax := "10", ymax := "10" }

def bb1 : BndBox := { xmin := "3", ymin := "4", xmax := "20", ymax := "30" }

/-- Object A of the spec example: `rotation="0"`. -/
def objRot0 : VOCObject :=
  { name := "grape", bndbox := bb0, attributes := [("rotation", "0")] }

/-- Object B of the spec example: `rotation="5"`. -/
def objRot5 : VOCObject :=
  { name := "grape", bndbox := bb1, attributes := [("rotation", "5")] }

def docRot : VOCDocument :=
  { folder := "f", filename := "a.jpg", width := some 100, height := some 80,
    objects := [objRot0, objRot5] }

/-- An object whose rotation value is non-numeric text. -/
def objRotBad : VOCObject :=
  { name := "grape", bndbox := bb0, attributes := [("rotation", "abc")] }

def docRotBad : VOCDocument :=
  { folder := "f", filename := "a.jpg", width := none, height := none,
    objects := [objRot0, objRotBad] }

def objB75 : VOCObject :=
  { name := "grape", bndbox := bb0, attributes := [("BBCH", "75")] }

def objB79 : VOCObject :=
  { name := "grape", bndbox := bb1, attributes := [("BBCH", "79")] }

def docBBCH : VOCDocument :=
  { folder := "f", filename := "b.jpg", width := some 10, height := some 10,
    objects := [objB75, objB79] }

def obj75 : VOCObject := { name := "75", bndbox := bb0, attributes := [] }

def obj76 : VOCObject := { name := "76", bndbox := bb1, attributes := [] }

def obj1 : VOCObject := { name := "1", bndbox := bb0, attributes := [] }

def obj2 : VOCObject := { name := "2", bndbox := bb1, attributes := [] }

def docLbl : VOCDocument :=
  { folder := "f", filename := "c.jpg", width := none, height := none,
    objects := [obj75, obj76] }

def doc75 : VOCDocument :=
  { folder := "f", filename := "c.jpg", width := none, height := none,
    objects := [obj75] }

def docClu : VOCDocument :=
  { folder := "f", filename := "d.jpg", width := none, height := none,
    objects := [obj1, obj2] }

def docImgA : VOCDocument :=
  { folder := "vine", filename := "photos/a.jpg", width := some 100,
    height := some 80, objects := [obj75] }

def docImgB : VOCDocument :=
  { folder := "vine", filename := "photos/b.jpg", width := some 100,
    height := some 80, objects := [obj76] }

def docImgC : VOCDocument :=
  { folder := "vine", filename := "c.jpg", width := none, height := none,
    objects := [obj75] }

def docEmpty : VOCDocument :=
  { folder := "vine", filename := "photos/e.jpg", width := none,
    height := none, objects := [] }

/-! ### Infrastructure lemmas -/

@[simp] theorem exceptBind_ok {ε α β : Type} (a : α) (f : α → Except ε β) :
    (Except.ok a >>= f) = f a := rfl

@[simp] theorem exceptBind_error {ε α β : Type} (e : ε)
    (f : α → Except ε β) :
    ((Except.error e : Except ε α) >>= f) = Except.error e := rfl

@[simp] theorem exceptPure {ε α : Type} (a : α) :
    (pure a : Except ε α) = Except.ok a := rfl

theorem rotationCheck_ok {o : VOCObject} {b : Bool}
    (h : rotationCheck o = Except.ok b) : b = isRotatedB o := by
  unfold rotationCheck at h
  unfold isRotatedB
  cases hfa : findAttr o "rotation" with
  | none => simp only [hfa] at h ⊢; cases h; rfl
  | some v =>
      simp only [hfa] at h ⊢
      cases hq : pyFloat v with
      | none => simp only [hq] at h; exact Except.noConfusion h
      | some q => simp only [hq] at h ⊢; cases h; rfl

theorem filterRotated_ok : ∀ {l l' : List VOCObject},
    filterRotated l = Except.ok l' →
    l' = l.filter (fun o => !isRotatedB o) := by
  intro l
  induction l with
  | nil =>
      intro l' h
      simp only [filterRotated] at h
      cases h
      rfl
  | cons o rest ih =>
      intro l' h
      rw [filterRotated] at h
      cases hr : rotationCheck o with
      | error e =>
          rw [hr, exceptBind_error] at h
          exact Except.noConfusion h
      | ok b =>
          rw [hr] at h
          rw [exceptBind_ok] at h
          cases hrest : filterRotated rest with
          | error e =>
              rw [hrest, exceptBind_error] at h
              exact Except.noConfusion h
          | ok rest' =>
              rw [hrest] at h
              rw [exceptBind_ok] at h
              have hb := rotationCheck_ok hr
              cases b with
              | true =>
                  simp at h
                  subst h
                  rw [List.filter_cons_of_neg (by simp [← hb])]
                  exact ih hrest
              | false =>
                  simp at h
                  subst h
                  rw [List.filter_cons_of_pos (by simp [← hb])]
                  rw [ih hrest]

theorem filterUnwanted_ok (codes : List PyVal) :
    ∀ {l l' : List VOCObject},
    filterUnwanted codes l = Except.ok l' →
    l' = l.filter (allowMatch codes) := by
  intro l
  induction l with
  | nil =>
      intro l' h
      simp only [filterUnwanted] at h
      cases h
      rfl
  | cons o rest ih =>
      intro l' h
      rw [filterUnwanted] at h
      cases hn : pyInt o.name with
      | none => simp only [hn] at h; exact Except.noConfusion h
      | some n =>
          simp only [hn] at h
          cases hrest : filterUnwanted codes rest with
          | error e =>
              simp only [hrest, exceptBind_error] at h
              exact Except.noConfusion h
          | ok rest' =>
              simp only [hrest, exceptBind_ok, exceptPure] at h
              by_cases hc : codes.any (fun c => pyEq (PyVal.int n) c) = true
              · rw [if_pos hc] at h
                cases h
                rw [List.filter_cons_of_pos (by simp [allowMatch, hn, hc])]
                rw [ih hrest]
              · rw [if_neg hc] at h
                cases h
                rw [List.filter_cons_of_neg (by simp [allowMatch, hn]; simpa using hc)]
                exact ih hrest

/-- A successful `mapM` of an elementwise `Except` function whose successes
are described by a pure function `g` yields exactly `List.map g`. -/
theorem mapM_ok_map {f : VOCObject → Except VOCError VOCObject}
    {g : VOCObject → VOCObject}
    (hf : ∀ o r, f o = Except.ok r → r = g o) :
    ∀ {l l' : List VOCObject}, l.mapM f = Except.ok l' → l' = l.map g := by
  intro l
  induction l with
  | nil =>
      intro l' h
      rw [List.mapM_nil] at h
      cases h
      rfl
  | cons o rest ih =>
      intro l' h
      rw [List.mapM_cons] at h
      cases hfo : f o with
      | error e =>
          rw [hfo, exceptBind_error] at h
          exact Except.noConfusion h
      | ok r =>
          rw [hfo] at h
          rw [exceptBind_ok] at h
          cases hrest : rest.mapM f with
          | error e =>
              rw [hrest, exceptBind_error] at h
              exact Except.noConfusion h
          | ok rest' =>
              rw [hrest] at h
              simp only [exceptBind_ok, exceptPure] at h
              cases h
              rw [List.map_cons, ← hf o r hfo, ih hrest]

theorem moveBBCHObj_ok (o r : VOCObject)
    (h : moveBBCHObj o = Except.ok r) :
    r = { o with name := (findAttr o "BBCH").getD o.name } := by
  unfold moveBBCHObj at h
  cases hfa : findAttr o "BBCH" with
  | none => simp only [hfa] at h; exact Except.noConfusion h
  | some v => simp only [hfa] at h; cases h; rfl

theorem generalizeObj_ok (o r : VOCObject)
    (h : generalizeObj o = Except.ok r) :
    r = { o with name := String.mk (o.name.toList.take 1) } := by
  unfold generalizeObj at h
  by_cases he : o.name = ""
  · rw [if_pos he] at h; exact Except.noConfusion h
  · rw [if_neg he] at h; cases h; rfl

theorem map_objShape_map_eq (g : VOCObject → VOCObject)
    (hg : ∀ o, objShape (g o) = objShape o) (l : List VOCObject) :
    (l.map g).map objShape = l.map objShape := by
  induction l with
  | nil => rfl
  | cons o rest ih => simp [hg, ih]

theorem map_objShape_filterMap_sublist (f : VOCObject → Option VOCObject)
    (hf : ∀ o r, f o = some r → objShape r = objShape o) :
    ∀ l : List VOCObject,
    List.Sublist ((l.filterMap f).map objShape) (l.map objShape) := by
  intro l
  induction l with
  | nil => simp
  | cons o rest ih =>
      cases hfo : f o with
      | none =>
          rw [List.filterMap_cons_none hfo, List.map_cons]
          exact ih.cons _
      | some r =>
          rw [List.filterMap_cons_some hfo, List.map_cons, List.map_cons,
            hf o r hfo]
          exact ih.cons₂ _

/-- Successful application of any single strategy leaves the document frame
(`filename`, `width`, `height`, `folder`) untouched and the retained
objects' shapes (bounding box and attributes) form a sublist of the input
ones: only label rewriting and whole-object removal happen. -/
theorem applyStrategy_frame (s : Strategy) (doc doc' : VOCDocument)
    (h : applyStrategy s doc = Except.ok doc') :
    doc'.folder = doc.folder ∧ doc'.filename = doc.filename ∧
    doc'.width = doc.width ∧ doc'.height = doc.height ∧
    List.Sublist (doc'.objects.map objShape) (doc.objects.map objShape) := by
  cases s with
  | moveBBCHCode =>
      simp only [applyStrategy, applyMoveBBCH] at h
      cases hm : doc.objects.mapM moveBBCHObj with
      | error e => rw [hm, exceptBind_error] at h; exact Except.noConfusion h
      | ok objs =>
          rw [hm, exceptBind_ok] at h
          simp at h
          subst h
          refine ⟨rfl, rfl, rfl, rfl, ?_⟩
          rw [mapM_ok_map moveBBCHObj_ok hm,
            map_objShape_map_eq
              (fun o => { o with name := (findAttr o "BBCH").getD o.name })
              (fun o => rfl)]
  | removeRotatedGrapes =>
      simp only [applyStrategy, applyRemoveRotated] at h
      cases hm : filterRotated doc.objects with
      | error e => rw [hm, exceptBind_error] at h; exact Except.noConfusion h
      | ok objs =>
          rw [hm, exceptBind_ok] at h
          simp at h
          subst h
          refine ⟨rfl, rfl, rfl, rfl, ?_⟩
          rw [filterRotated_ok hm]
          exact List.Sublist.map _ (List.filter_sublist _)
  | removeUnwantedBBCH codes =>
      simp only [applyStrategy, applyRemoveUnwanted] at h
      cases hm : filterUnwanted codes doc.objects with
      | error e => rw [hm, exceptBind_error] at h; exact Except.noConfusion h
      | ok objs =>
          rw [hm, exceptBind_ok] at h
          simp at h
          subst h
          refine ⟨rfl, rfl, rfl, rfl, ?_⟩
          rw [filterUnwanted_ok codes hm]
          exact List.Sublist.map _ (List.filter_sublist _)
  | clusterBBCHCode clusters =>
      simp only [applyStrategy] at h
      cases h
      refine ⟨rfl, rfl, rfl, rfl, ?_⟩
      refine map_objShape_filterMap_sublist _ ?_ doc.objects
      intro o r hr
      cases hl : clusterLookup clusters o.name with
      | none => rw [hl] at hr; exact Option.noConfusion hr
      | some k => rw [hl] at hr; cases hr; rfl
  | generalizeBBCH =>
      simp only [applyStrategy, applyGeneralize] at h
      cases hm : doc.objects.mapM generalizeObj with
      | error e => rw [hm, exceptBind_error] at h; exact Except.noConfusion h
      | ok objs =>
          rw [hm, exceptBind_ok] at h
          simp at h
          subst h
          refine ⟨rfl, rfl, rfl, rfl, ?_⟩
          rw [mapM_ok_map generalizeObj_ok hm,
            map_objShape_map_eq
              (fun o => { o with name := String.mk (o.name.toList.take 1) })
              (fun o => rfl)]

theorem find?_eq_some_of_unique {α : Type} (p : α → Bool) (c : α) :
    ∀ {l : List α}, c ∈ l → p c = true → (∀ x ∈ l, p x = true → x = c) →
    l.find? p = some c := by
  intro l
  induction l with
  | nil => intro hc; simp at hc
  | cons a rest ih =>
      intro hc hpc huniq
      by_cases hpa : p a = true
      · have ha : a = c := huniq a (by simp) hpa
        subst ha
        rw [List.find?_cons_of_pos _ hpa]
      · rw [List.find?_cons_of_neg _ hpa]
        have hc' : c ∈ rest := by
          rcases List.mem_cons.mp hc with h1 | h1
          · exact absurd (h1 ▸ hpc) hpa
          · exact h1
        exact ih hc' hpc (fun x hx => huniq x (List.mem_cons_of_mem _ hx))

/-- Under the assumption that no other configured cluster holds a member
with the same string form, a member label of cluster `c` maps to the key of
`c` in the table built by `ClusterBBCHCodeStrategy.__init__`. -/
theorem clusterLookup_eq (clusters : List (List Int)) (c : List Int)
    (a : Int) (hc : c ∈ clusters) (ha : a ∈ c)
    (huniq : ∀ c' ∈ clusters, (∃ x ∈ c', toString x = toString a) → c' = c) :
    clusterLookup clusters (toString a) = some (clusterKey c) := by
  unfold clusterLookup
  rw [find?_eq_some_of_unique _ c (List.mem_reverse.mpr hc)
    (by simp only [List.any_eq_true]; exact ⟨a, ha, by simp⟩)
    (fun x hx hpx => by
      refine huniq x (List.mem_reverse.mp hx) ?_
      rcases List.any_eq_true.mp hpx with ⟨e, he, heq⟩
      exact ⟨e, he, by simpa using heq⟩)]
  rfl

@[simp] theorem process_nil (doc : VOCDocument) :
    VOCProcessor.process [] doc = Except.ok doc := rfl

@[simp] theorem process_cons (s : Strategy) (strategies : List Strategy)
    (doc : VOCDocument) :
    VOCProcessor.process (s :: strategies) doc =
      (applyStrategy s doc >>= VOCProcessor.process strategies) := rfl

/-- Batch-level driver lemma: when every document goes through the pipeline
without an error and every surviving document's image is present, the run
returns exactly one written annotation and one copied image per surviving
document, named by consecutive generated identifiers. -/
theorem process_dataset_ok (origin out_a out_p : String)
    (strategies : List Strategy) (existingImages : List String)
    (idGen : Nat → String) :
    ∀ (batch pds : List VOCDocument) (n : Nat),
    batch.mapM (VOCProcessor.process strategies) = Except.ok pds →
    (∀ d ∈ pds, subtree_has_grapes d = true →
      (origin ++ get_raw_filename d.filename) ∈ existingImages) →
    process_dataset origin strategies out_a out_p existingImages idGen n batch
      = Except.ok
        { xmlFiles := ((pds.filter subtree_has_grapes).enumFrom n).map
            (fun p => (out_a ++ idGen p.1 ++ ".xml",
              { p.2 with
                folder := ""
                filename := idGen p.1 ++ "." ++
                  imgExtension (get_raw_filename p.2.filename) })),
          imgFiles := ((pds.filter subtree_has_grapes).enumFrom n).map
            (fun p => (origin ++ get_raw_filename p.2.filename,
              out_p ++ idGen p.1 ++ "." ++
                imgExtension (get_raw_filename p.2.filename))) } := by
  intro batch
  induction batch with
  | nil =>
      intro pds n hm himg
      rw [List.mapM_nil] at hm
      cases hm
      rfl
  | cons doc rest ih =>
      intro pds n hm himg
      rw [List.mapM_cons] at hm
      cases hd : VOCProcessor.process strategies doc with
      | error e =>
          rw [hd, exceptBind_error] at hm
          exact Except.noConfusion hm
      | ok d =>
          rw [hd, exceptBind_ok] at hm
          cases hrest : rest.mapM (VOCProcessor.process strategies) with
          | error e =>
              rw [hrest, exceptBind_error] at hm
              exact Except.noConfusion hm
          | ok pds' =>
              rw [hrest] at hm
              simp only [exceptBind_ok, exceptPure] at hm
              cases hm
              simp only [process_dataset, hd, exceptBind_ok]
              by_cases hg : subtree_has_grapes d = true
              · have hmem : (origin ++ get_raw_filename d.filename) ∈
                    existingImages := himg d (by simp) hg
                rw [if_pos hg, if_pos hmem]
                rw [ih pds' (n + 1) hrest
                  (fun d' hd' hg' => himg d' (by simp [hd']) hg')]
                rw [exceptBind_ok]
                rw [List.filter_cons_of_pos hg, List.enumFrom_cons,
                  List.map_cons, List.map_cons]
                simp [String.append_assoc]
              · rw [if_neg hg]
                rw [ih pds' n hrest
                  (fun d' hd' hg' => himg d' (by simp [hd']) hg')]
                rw [List.filter_cons_of_neg hg]

/-! ### Claim theorems: single strategies -/

/-- C4: for every annotation document and every rule chain built from the
defined rule kinds, a successful pipeline run never increases the number of
objects — every rule only removes or relabels objects. -/
theorem C4_no_objects_added (strategies : List Strategy) :
    ∀ (doc doc' : VOCDocument),
    VOCProcessor.process strategies doc = Except.ok doc' →
    doc'.objects.length ≤ doc.objects.length := by
  induction strategies with
  | nil =>
      intro doc doc' h
      rw [process_nil] at h
      cases h
      exact Nat.le_refl _
  | cons s rest ih =>
      intro doc doc' h
      rw [process_cons] at h
      cases hs : applyStrategy s doc with
      | error e => rw [hs, exceptBind_error] at h; exact Except.noConfusion h
      | ok d1 =>
          rw [hs, exceptBind_ok] at h
          have hsub := (applyStrategy_frame s doc d1 hs).2.2.2.2
          have h1 : d1.objects.length ≤ doc.objects.length := by
            have := hsub.length_le
            simpa using this
          exact Nat.le_trans (ih d1 doc' h) h1

/-- Witness for C4: `RemoveByRotation` then clustering on the spec's example
document only ever shrinks the object list. -/
theorem C4_witness :
    (({ docRot with objects := [objRot0] } : VOCDocument)).objects.length ≤
      docRot.objects.length :=
  C4_no_objects_added [Strategy.removeRotatedGrapes] docRot
    { docRot with objects := [objRot0] } (by decide)

/-- C5: a successful `RemoveRotatedGrapesStrategy` application retains
exactly the objects that are not rotated (`isRotatedB`: `rotation` present
and parsing to a nonzero value); objects with no `rotation` attribute are
always retained. -/
theorem C5_removeByRotation (doc doc' : VOCDocument)
    (h : applyStrategy Strategy.removeRotatedGrapes doc = Except.ok doc') :
    doc'.objects = doc.objects.filter (fun o => !isRotatedB o) ∧
    ∀ o ∈ doc.objects, findAttr o "rotation" = none → o ∈ doc'.objects := by
  have hobj : doc'.objects = doc.objects.filter (fun o => !isRotatedB o) := by
    simp only [applyStrategy, applyRemoveRotated] at h
    cases hm : filterRotated doc.objects with
    | error e => rw [hm, exceptBind_error] at h; exact Except.noConfusion h
    | ok objs =>
        rw [hm, exceptBind_ok] at h
        simp at h
        subst h
        exact filterRotated_ok hm
  refine ⟨hobj, ?_⟩
  intro o ho hrot
  rw [hobj]
  refine List.mem_filter.mpr ⟨ho, ?_⟩
  simp [isRotatedB, hrot]

/-- Witness for C5, the spec's own example: objects with `rotation="0"` and
`rotation="5"`, of which exactly the first survives. -/
theorem C5_witness :
    (({ docRot with objects := [objRot0] } : VOCDocument)).objects =
      docRot.objects.filter (fun o => !isRotatedB o) ∧
    ∀ o ∈ docRot.objects, findAttr o "rotation" = none →
      o ∈ (({ docRot with objects := [objRot0] } : VOCDocument)).objects :=
  C5_removeByRotation docRot { docRot with objects := [objRot0] } (by decide)

/-- C9: every defined rule, when it succeeds, leaves `filename`, `width`
and `height` unchanged, and the retained objects keep their bounding box
and attributes (`objShape`) — only label rewriting and whole-object removal
occur. -/
theorem C9_rules_frame (s : Strategy) (doc doc' : VOCDocument)
    (h : applyStrategy s doc = Except.ok doc') :
    doc'.filename = doc.filename ∧ doc'.width = doc.width ∧
    doc'.height = doc.height ∧
    List.Sublist (doc'.objects.map objShape) (doc.objects.map objShape) := by
  rcases applyStrategy_frame s doc doc' h with ⟨-, h1, h2, h3, h4⟩
  exact ⟨h1, h2, h3, h4⟩

/-- Witness for C9: `GeneralizeBBCHCodeStrategy` on a concrete document. -/
theorem C9_witness :
    (({ doc75 with objects := [{ obj75 with name := "7" }] } :
        VOCDocument)).filename = doc75.filename ∧
    (({ doc75 with objects := [{ obj75 with name := "7" }] } :
        VOCDocument)).width = doc75.width ∧
    (({ doc75 with objects := [{ obj75 with name := "7" }] } :
        VOCDocument)).height = doc75.height ∧
    List.Sublist
      ((({ doc75 with objects := [{ obj75 with name := "7" }] } :
        VOCDocument)).objects.map objShape)
      (doc75.objects.map objShape) :=
  C9_rules_frame Strategy.generalizeBBCH doc75
    { doc75 with objects := [{ obj75 with name := "7" }] } (by decide)

theorem rotationCheck_error {o : VOCObject} {e : VOCError}
    (h : rotationCheck o = Except.error e) :
    ∃ v, findAttr o "rotation" = some v ∧ pyFloat v = none ∧
      e = VOCError.valueError v := by
  unfold rotationCheck at h
  cases hfa : findAttr o "rotation" with
  | none => simp only [hfa] at h; exact Except.noConfusion h
  | some v =>
      simp only [hfa] at h
      cases hq : pyFloat v with
      | none => simp only [hq] at h; cases h; exact ⟨v, rfl, hq, rfl⟩
      | some q => simp only [hq] at h; exact Except.noConfusion h

theorem filterRotated_error : ∀ {l : List VOCObject},
    (∃ o ∈ l, ∃ v, findAttr o "rotation" = some v ∧ pyFloat v = none) →
    ∃ v, pyFloat v = none ∧
      filterRotated l = Except.error (VOCError.valueError v) := by
  intro l
  induction l with
  | nil =>
      intro h
      rcases h with ⟨o, ho, _⟩
      simp at ho
  | cons o rest ih =>
      intro h
      cases hr : rotationCheck o with
      | error e =>
          rcases rotationCheck_error hr with ⟨v, hfa, hq, rfl⟩
          refine ⟨v, hq, ?_⟩
          rw [filterRotated, hr, exceptBind_error]
      | ok b =>
          have hw : ∃ o' ∈ rest, ∃ v, findAttr o' "rotation" = some v ∧
              pyFloat v = none := by
            rcases h with ⟨o₀, ho₀, v, hfa, hq⟩
            rcases List.mem_cons.mp ho₀ with h₁ | hmem
            · exfalso
              subst h₁
              unfold rotationCheck at hr
              simp only [hfa, hq] at hr
              exact Except.noConfusion hr
            · exact ⟨o₀, hmem, v, hfa, hq⟩
          rcases ih hw with ⟨v, hq, hrest⟩
          refine ⟨v, hq, ?_⟩
          rw [filterRotated, hr, exceptBind_ok, hrest, exceptBind_error]

/-- C10: if some object's `rotation` attribute is present but its value does
not parse as a number, `RemoveRotatedGrapesStrategy` raises the parse error
out of the rule, failing the whole document — only absence of the attribute
is suppressed. -/
theorem C10_malformed_rotation (doc : VOCDocument)
    (h : ∃ o ∈ doc.objects, ∃ v, findAttr o "rotation" = some v ∧
      pyFloat v = none) :
    ∃ v, pyFloat v = none ∧
      applyStrategy Strategy.removeRotatedGrapes doc =
        Except.error (VOCError.valueError v) := by
  rcases filterRotated_error h with ⟨v, hq, hfr⟩
  refine ⟨v, hq, ?_⟩
  simp only [applyStrategy, applyRemoveRotated]
  rw [hfr, exceptBind_error]

/-- Witness for C10: a document with `rotation="abc"` fails with a parse
error. -/
theorem C10_witness :
    ∃ v, pyFloat v = none ∧
      applyStrategy Strategy.removeRotatedGrapes docRotBad =
        Except.error (VOCError.valueError v) :=
  C10_malformed_rotation docRotBad (by decide)

theorem mapM_move_all : ∀ {l : List VOCObject},
    (∀ o ∈ l, (findAttr o "BBCH").isSome) →
    l.mapM moveBBCHObj = Except.ok
      (l.map (fun o => { o with name := (findAttr o "BBCH").getD o.name })) := by
  intro l
  induction l with
  | nil =>
      intro _
      rw [List.mapM_nil]
      rfl
  | cons o rest ih =>
      intro hall
      rw [List.mapM_cons]
      rcases Option.isSome_iff_exists.mp (hall o (by simp)) with ⟨v, hfa⟩
      rw [show moveBBCHObj o = Except.ok { o with name := v } from by
        unfold moveBBCHObj; simp [hfa]]
      rw [exceptBind_ok, ih (fun o' ho' => hall o' (by simp [ho']))]
      rw [exceptBind_ok]
      simp [List.map_cons, hfa]

theorem mapM_move_err : ∀ {l : List VOCObject},
    (∃ o ∈ l, findAttr o "BBCH" = none) →
    l.mapM moveBBCHObj = Except.error (VOCError.missingAttribute "BBCH") := by
  intro l
  induction l with
  | nil =>
      intro h
      rcases h with ⟨o, ho, _⟩
      simp at ho
  | cons o rest ih =>
      intro h
      rw [List.mapM_cons]
      cases hfa : findAttr o "BBCH" with
      | none =>
          rw [show moveBBCHObj o =
              Except.error (VOCError.missingAttribute "BBCH") from by
            unfold moveBBCHObj; simp [hfa]]
          rw [exceptBind_error]
      | some v =>
          have hrest : ∃ o' ∈ rest, findAttr o' "BBCH" = none := by
            rcases h with ⟨o₀, ho₀, h₀⟩
            rcases List.mem_cons.mp ho₀ with h₁ | hmem
            · subst h₁
              rw [hfa] at h₀
              exact Option.noConfusion h₀
            · exact ⟨o₀, hmem, h₀⟩
          rw [show moveBBCHObj o = Except.ok { o with name := v } from by
            unfold moveBBCHObj; simp [hfa]]
          rw [exceptBind_ok, ih hrest, exceptBind_error]

/-- C7: `MoveBBCHCodeStrategy` replaces every object's label with its `BBCH`
attribute value; if any object lacks that attribute, the rule propagates the
missing-attribute error for the whole document instead of skipping the
object or substituting a default. -/
theorem C7_extract_label (doc : VOCDocument) :
    ((∀ o ∈ doc.objects, (findAttr o "BBCH").isSome) →
      applyStrategy Strategy.moveBBCHCode doc = Except.ok
        { doc with objects := doc.objects.map (fun o => { o with name := (findAttr o "BBCH").getD o.name }) }) ∧
    ((∃ o ∈ doc.objects, findAttr o "BBCH" = none) →
      applyStrategy Strategy.moveBBCHCode doc =
        Except.error (VOCError.missingAttribute "BBCH")) := by
  constructor
  · intro hall
    simp only [applyStrategy, applyMoveBBCH]
    rw [mapM_move_all hall, exceptBind_ok]
    rfl
  · intro hex
    simp only [applyStrategy, applyMoveBBCH]
    rw [mapM_move_err hex, exceptBind_error]

/-- Witness for C7: both objects carry `BBCH`, so the labels are rewritten
to the attribute values. -/
theorem C7_witness :
    applyStrategy Strategy.moveBBCHCode docBBCH = Except.ok
      { docBBCH with objects := docBBCH.objects.map (fun o => { o with name := (findAttr o "BBCH").getD o.name }) } :=
  (C7_extract_label docBBCH).1 (by decide)

/-- C2 (amended): a successful `RemoveUnwantedBBCHAnnotationsStrategy`
application retains exactly the objects whose label, parsed as an integer,
is `in` the allow-list under Python equality (`allowMatch`), keeping their
labels unchanged; since an integer never equals a string, an all-string
allow-list (the constructor's annotated `list[str]` type) removes every
object. -/
theorem C2_allowlist (codes : List PyVal) (doc doc' : VOCDocument)
    (h : applyStrategy (Strategy.removeUnwantedBBCH codes) doc =
      Except.ok doc') :
    doc'.objects = doc.objects.filter (allowMatch codes) ∧
    ((∀ c ∈ codes, ∃ s, c = PyVal.str s) → doc'.objects = []) := by
  have hobj : doc'.objects = doc.objects.filter (allowMatch codes) := by
    simp only [applyStrategy, applyRemoveUnwanted] at h
    cases hm : filterUnwanted codes doc.objects with
    | error e => rw [hm, exceptBind_error] at h; exact Except.noConfusion h
    | ok objs =>
        rw [hm, exceptBind_ok] at h
        simp at h
        subst h
        exact filterUnwanted_ok codes hm
  refine ⟨hobj, ?_⟩
  intro hstr
  rw [hobj]
  refine List.filter_eq_nil_iff.mpr ?_
  intro o ho
  unfold allowMatch
  cases hn : pyInt o.name with
  | none => simp
  | some n =>
      simp only [Bool.not_eq_true, List.any_eq_false]
      intro c hcm
      rcases hstr c hcm with ⟨s, rfl⟩
      simp [pyEq]

/-- Witness for C2: with the integer allow-list `[75]`, the object labelled
`"75"` is retained unchanged and the object labelled `"76"` is removed. -/
theorem C2_witness :
    (({ docLbl with objects := [obj75] } : VOCDocument)).objects =
      docLbl.objects.filter (allowMatch [PyVal.int 75]) ∧
    ((∀ c ∈ [PyVal.int 75], ∃ s, c = PyVal.str s) →
      (({ docLbl with objects := [obj75] } : VOCDocument)).objects = []) :=
  C2_allowlist [PyVal.int 75] docLbl { docLbl with objects := [obj75] }
    (by decide)

/-- Counterexample for C2 as stated: the allow-list holds the string
`"75"`, the document's only object is labelled `"75"` — a member of the
allow-list in its stored string form — yet the strategy removes it, because
the code compares the parsed integer `75` with the string `"75"`. -/
theorem C2_counterexample :
    PyVal.str "75" ∈ [PyVal.str "75"] ∧
    doc75.objects.map VOCObject.name = ["75"] ∧
    applyStrategy (Strategy.removeUnwantedBBCH [PyVal.str "75"]) doc75 =
      Except.ok { doc75 with objects := [] } := by decide

/-- C6 (amended): provided no other configured cluster holds a member with
the same string form, two labels of the same cluster are both rewritten to
that cluster's key (members joined with `"_"`), and a successful
application keeps exactly the objects whose label has a table entry,
relabelled with their key. -/
theorem C6_cluster_same_key (clusters : List (List Int)) (a b : Int)
    (c : List Int) (hc : c ∈ clusters) (ha : a ∈ c) (hb : b ∈ c)
    (huniqa : ∀ c' ∈ clusters, (∃ x ∈ c', toString x = toString a) → c' = c)
    (huniqb : ∀ c' ∈ clusters, (∃ x ∈ c', toString x = toString b) → c' = c) :
    clusterLookup clusters (toString a) = some (clusterKey c) ∧
    clusterLookup clusters (toString b) = some (clusterKey c) ∧
    ∀ doc doc',
      applyStrategy (Strategy.clusterBBCHCode clusters) doc =
        Except.ok doc' →
      doc'.objects = doc.objects.filterMap
        (fun o => (clusterLookup clusters o.name).map
          (fun k => { o with name := k })) := by
  refine ⟨clusterLookup_eq clusters c a hc ha huniqa,
    clusterLookup_eq clusters c b hc hb huniqb, ?_⟩
  intro doc doc' h
  simp only [applyStrategy] at h
  cases h
  rfl

/-- Witness for C6: labels `74` and `75` of the single cluster `[74, 75]`
both map to the key `"74_75"`. -/
theorem C6_witness :
    clusterLookup [[74, 75]] (toString (74 : Int)) =
      some (clusterKey [74, 75]) ∧
    clusterLookup [[74, 75]] (toString (75 : Int)) =
      some (clusterKey [74, 75]) ∧
    ∀ doc doc',
      applyStrategy (Strategy.clusterBBCHCode [[74, 75]]) doc =
        Except.ok doc' →
      doc'.objects = doc.objects.filterMap
        (fun o => (clusterLookup [[74, 75]] o.name).map
          (fun k => { o with name := k })) :=
  C6_cluster_same_key [[74, 75]] 74 75 [74, 75] (by decide) (by decide)
    (by decide) (by decide) (by decide)

/-- Counterexample for C6 as stated: with the overlapping configuration
`[[1, 2], [2, 3]]`, labels `1` and `2` are configured in the same cluster
`[1, 2]`, yet the strategy rewrites them to the different keys `"1_2"` and
`"2_3"` — the later cluster overwrote the table entry for `2`. -/
theorem C6_counterexample :
    (1 : Int) ∈ ([1, 2] : List Int) ∧ (2 : Int) ∈ ([1, 2] : List Int) ∧
    ([1, 2] : List Int) ∈ [[1, 2], [2, 3]] ∧
    applyStrategy (Strategy.clusterBBCHCode [[1, 2], [2, 3]]) docClu =
      Except.ok { docClu with objects :=
        [{ obj1 with name := "1_2" }, { obj2 with name := "2_3" }] } ∧
    ("1_2" : String) ≠ "2_3" := by decide

/-! ### Claim theorems: the batch driver -/

/-- C1 (amended): when a surviving document's source image is missing, the
unguarded copy raises, the error propagates out of `process_dataset` and the
remaining documents are not processed; no missing-image counter exists. -/
theorem C1_missing_image_aborts (origin out_a out_p : String)
    (strategies : List Strategy) (existingImages : List String)
    (idGen : Nat → String) (n : Nat) (doc d : VOCDocument)
    (rest : List VOCDocument)
    (hd : VOCProcessor.process strategies doc = Except.ok d)
    (hg : subtree_has_grapes d = true)
    (hmiss : (origin ++ get_raw_filename d.filename) ∉ existingImages) :
    process_dataset origin strategies out_a out_p existingImages idGen n
      (doc :: rest) =
      Except.error (VOCError.missingImage
        (origin ++ get_raw_filename d.filename)) := by
  simp only [process_dataset, hd, exceptBind_ok]
  rw [if_pos hg, if_neg hmiss]

/-- Witness for C1's amended statement: the first document's image is
absent, so the run errors out regardless of the rest of the batch. -/
theorem C1_witness :
    process_dataset "im/" [] "ann/" "pho/" [] (fun k => toString k) 0
      [docImgA, docImgB] =
      Except.error (VOCError.missingImage
        ("im/" ++ get_raw_filename docImgA.filename)) :=
  C1_missing_image_aborts "im/" "ann/" "pho/" [] [] (fun k => toString k) 0
    docImgA docImgA [docImgB] (by decide) (by decide) (by decide)

/-- Counterexample for C1 as stated: the surviving document `docImgA`
references `photos/a.jpg`, which is not among the existing images (only
`img/b.jpg` is), and instead of recording a missing-image failure and
continuing with `docImgB`, the batch aborts with the raised error. -/
theorem C1_counterexample :
    process_dataset "img/" [] "ann/" "pho/" ["img/b.jpg"]
      (fun k => toString k) 0 [docImgA, docImgB] =
      Except.error (VOCError.missingImage "img/a.jpg") := by decide

/-- C3 (amended): a run completes only when every surviving document's
image copy succeeds; in that case it returns the written annotation and
image files — one pair per surviving document, while discarded documents
simply produce nothing — but no `RunSummary` counters exist anywhere in the
result. -/
theorem C3_run_completes (origin out_a out_p : String)
    (strategies : List Strategy) (existingImages : List String)
    (idGen : Nat → String) (batch pds : List VOCDocument)
    (hm : batch.mapM (VOCProcessor.process strategies) = Except.ok pds)
    (himg : ∀ d ∈ pds, subtree_has_grapes d = true →
      (origin ++ get_raw_filename d.filename) ∈ existingImages) :
    ∃ out : SyncOutput,
      process_dataset origin strategies out_a out_p existingImages idGen 0
        batch = Except.ok out ∧
      out.xmlFiles.length = (pds.filter subtree_has_grapes).length ∧
      out.imgFiles.length = (pds.filter subtree_has_grapes).length := by
  refine ⟨_, process_dataset_ok origin out_a out_p strategies existingImages
    idGen batch pds 0 hm himg, ?_, ?_⟩ <;>
    simp [List.enumFrom_length]

/-- Witness for C3's amended statement: a batch of one surviving and one
empty document completes with exactly one annotation/image pair. -/
theorem C3_witness :
    ∃ out : SyncOutput,
      process_dataset "i/" [] "x/" "j/" ["i/a.jpg"] (fun k => toString k) 0
        [docImgA, docEmpty] = Except.ok out ∧
      out.xmlFiles.length =
        (([docImgA, docEmpty].filter subtree_has_grapes)).length ∧
      out.imgFiles.length =
        (([docImgA, docEmpty].filter subtree_has_grapes)).length :=
  C3_run_completes "i/" "x/" "j/" [] ["i/a.jpg"] (fun k => toString k)
    [docImgA, docEmpty] [docImgA, docEmpty] (by decide) (by decide)

/-- Counterexample for C3 as stated: a missing image is a per-document
failure, yet the run does not terminate with a `RunSummary` — it terminates
with a raised error, and the embedded driver's successful result
(`SyncOutput`) carries no counters at all. -/
theorem C3_counterexample :
    process_dataset "pics/" [] "xml/" "jpg/" [] (fun k => toString k) 0
      [docImgC] = Except.error (VOCError.missingImage "pics/c.jpg") := by
  decide

/-- C8: in a completed run, a document left with no objects produces no
output file at all, and every document with at least one remaining object
yields exactly one annotation file `<id>.xml` and one image copy
`<id>.<original extension>` under the same freshly drawn identifier. -/
theorem C8_outputs (origin out_a out_p : String)
    (strategies : List Strategy) (existingImages : List String)
    (idGen : Nat → String) (batch pds : List VOCDocument)
    (hm : batch.mapM (VOCProcessor.process strategies) = Except.ok pds)
    (himg : ∀ d ∈ pds, subtree_has_grapes d = true →
      (origin ++ get_raw_filename d.filename) ∈ existingImages) :
    process_dataset origin strategies out_a out_p existingImages idGen 0
      batch = Except.ok
        { xmlFiles := ((pds.filter subtree_has_grapes).enumFrom 0).map
            (fun p => (out_a ++ idGen p.1 ++ ".xml",
              { p.2 with
                folder := ""
                filename := idGen p.1 ++ "." ++
                  imgExtension (get_raw_filename p.2.filename) })),
          imgFiles := ((pds.filter subtree_has_grapes).enumFrom 0).map
            (fun p => (origin ++ get_raw_filename p.2.filename,
              out_p ++ idGen p.1 ++ "." ++
                imgExtension (get_raw_filename p.2.filename))) } :=
  process_dataset_ok origin out_a out_p strategies existingImages idGen
    batch pds 0 hm himg

/-- Witness for C8: the empty document contributes nothing; the surviving
document is emitted as `0.xml` plus `0.jpg` (extension preserved). -/
theorem C8_witness :
    process_dataset "i/" [] "x/" "j/" ["i/a.jpg"] (fun k => toString k) 0
      [docEmpty, docImgA] = Except.ok
        { xmlFiles :=
            ((([docEmpty, docImgA].filter subtree_has_grapes)).enumFrom 0).map
            (fun p => ("x/" ++ toString p.1 ++ ".xml",
              { p.2 with
                folder := ""
                filename := toString p.1 ++ "." ++
                  imgExtension (get_raw_filename p.2.filename) })),
          imgFiles :=
            ((([docEmpty, docImgA].filter subtree_has_grapes)).enumFrom 0).map
            (fun p => ("i/" ++ get_raw_filename p.2.filename,
              "j/" ++ toString p.1 ++ "." ++
                imgExtension (get_raw_filename p.2.filename))) } :=
  C8_outputs "i/" "x/" "j/" [] ["i/a.jpg"] (fun k => toString k)
    [docEmpty, docImgA] [docEmpty, docImgA] (by decide) (by decide)
